import Mathlib

/-!
# Tower Builder — verification of the game-logic core

Shallow embedding of the TowerBuilder repository (block.cpp/h, tower.cpp/h,
scorehistory.cpp/h, game.cpp/h, main.cpp).  C++ `float` quantities are
modelled over `ℚ` with decimal literals read exactly (in particular the
literal `0.1f` is read as `1/10`); `int` is modelled by `ℤ`.  Raylib
`Color` values are modelled by the palette index that selects them:
`Game::blockColors` is a fixed injective 10-entry table, so the index
`i % 10` identifies the colour; the out-of-palette `WHITE` used by the
default `Block` constructor is represented by the sentinel index 10.
Rendering (`Draw*`) functions have no effect on game state and are omitted.
-/

namespace TowerBuilder

/-- `static_cast<int>` applied to a non-negative-or-negative rational:
C++ float-to-int conversion truncates toward zero. -/
def cppFloatToInt (q : ℚ) : ℤ :=
  if q < 0 then -Int.floor (-q) else Int.floor q

/-- Game constant `BLOCK_HEIGHT = 30.0f` (game.h / game.cpp). -/
def BLOCK_HEIGHT : ℚ := 30

/-- Game constant `INITIAL_BLOCK_WIDTH = 200.0f`. -/
def INITIAL_BLOCK_WIDTH : ℚ := 200

/-- Game constant `INITIAL_SPEED = 150.0f`. -/
def INITIAL_SPEED : ℚ := 150

/-- Game constant `SPEED_INCREMENT = 15.0f`. -/
def SPEED_INCREMENT : ℚ := 15

/-- Game constant `SCREEN_WIDTH = 800.0f`. -/
def SCREEN_WIDTH : ℚ := 800

/-- Game constant `SCREEN_HEIGHT = 600.0f`. -/
def SCREEN_HEIGHT : ℚ := 600

/-- Game constant `PERFECT_THRESHOLD = 5.0f`. -/
def PERFECT_THRESHOLD : ℚ := 5

/-- Raylib `Rectangle`: position and dimensions, all `float` in the source. -/
structure Rectangle where
  x : ℚ
  y : ℚ
  width : ℚ
  height : ℚ
deriving DecidableEq, Repr

/-- `struct Block` (block.h): geometry, colour, speed, motion flag.
The colour is the palette index (see the file header). -/
structure Block where
  rect : Rectangle
  color : ℤ
  speed : ℚ
  isMoving : Bool
deriving DecidableEq, Repr

/-- The parameterized constructor
`Block(float x, float y, float width, float height, Color color, float speed)`
(block.cpp): initializer list `rect{x, y, width, height}, color(color),
speed(speed), isMoving(true)` — note `isMoving` is initialized to `true`
unconditionally, whatever `speed` is. -/
def mkBlock (x y width height : ℚ) (color : ℤ) (speed : ℚ) : Block :=
  { rect := { x := x, y := y, width := width, height := height }
    color := color
    speed := speed
    isMoving := true }

/-- The default constructor `Block()` (block.cpp):
`rect{0,0,0,0}, color(WHITE), speed(0), isMoving(false)`;
`WHITE` is outside the 10-colour palette and is modelled by index 10. -/
def defaultBlock : Block :=
  { rect := { x := 0, y := 0, width := 0, height := 0 }
    color := 10
    speed := 0
    isMoving := false }

/-- `Block::GetLeft` (block.cpp): `rect.x`. -/
def Block.GetLeft (b : Block) : ℚ := b.rect.x

/-- `Block::GetRight` (block.cpp): `rect.x + rect.width`. -/
def Block.GetRight (b : Block) : ℚ := b.rect.x + b.rect.width

/-- `class Tower` (tower.h): a `std::stack<Block>` (modelled as a list whose
head is the stack top) together with the separately maintained `height`
counter (an `int` in the source). -/
structure Tower where
  towerStack : List Block
  height : ℤ
deriving DecidableEq, Repr

/-- `Tower::Tower()` (tower.cpp): empty stack, `height(0)`. -/
def Tower.new : Tower := { towerStack := [], height := 0 }

/-- `Tower::Push` (tower.cpp): `towerStack.push(block); height++;`. -/
def Tower.Push (t : Tower) (block : Block) : Tower :=
  { towerStack := block :: t.towerStack, height := t.height + 1 }

/-- `Tower::Pop` (tower.cpp): pops and decrements `height` only when the
stack is non-empty. -/
def Tower.Pop (t : Tower) : Tower :=
  match t.towerStack with
  | [] => t
  | _ :: rest => { towerStack := rest, height := t.height - 1 }

/-- `Tower::IsEmpty` (tower.cpp): `towerStack.empty()`. -/
def Tower.IsEmpty (t : Tower) : Bool := t.towerStack.isEmpty

/-- `Tower::GetHeight` (tower.cpp): returns the `height` counter. -/
def Tower.GetHeight (t : Tower) : ℤ := t.height

/-- `Tower::Clear` (tower.cpp): pops everything, `height = 0`. -/
def Tower.Clear (_t : Tower) : Tower := { towerStack := [], height := 0 }

/-- Outcome of running a C++ expression that may have undefined behaviour:
either a value, or the undefined-behaviour case (no value is produced and
the C++ standard places no constraint on the program). -/
inductive CppOutcome (α : Type) where
  | val : α → CppOutcome α
  | undefinedBehaviour : CppOutcome α
deriving DecidableEq, Repr

/-- `Tower::Top` (tower.cpp): `return towerStack.top();` with no emptiness
guard.  `std::stack::top()` on an empty container is undefined behaviour,
modelled by `CppOutcome.undefinedBehaviour`; on a non-empty stack it
returns the most recently pushed element. -/
def Tower.TopImpl (t : Tower) : CppOutcome Block :=
  match t.towerStack with
  | [] => CppOutcome.undefinedBehaviour
  | b :: _ => CppOutcome.val b

/-- One element of the tower-op language for exercising the container:
the three mutating operations `Tower` exposes. -/
inductive TowerOp where
  | push : Block → TowerOp
  | pop : TowerOp
  | clear : TowerOp
deriving DecidableEq, Repr

/-- Run one `TowerOp` against a tower. -/
def Tower.applyOp (t : Tower) : TowerOp → Tower
  | TowerOp.push b => t.Push b
  | TowerOp.pop => t.Pop
  | TowerOp.clear => t.Clear

/-- Run a sequence of `TowerOp`s left to right. -/
def Tower.applyOps (t : Tower) : List TowerOp → Tower
  | [] => t
  | op :: ops => (t.applyOp op).applyOps ops

/-- `struct ScoreNode` minus its link pointer (scorehistory.h): one
completed-game record. -/
structure ScoreEntry where
  score : ℤ
  height : ℤ
deriving DecidableEq, Repr

/-- `class ScoreHistory` (scorehistory.h): the linked list reached from
`head` (modelled as the list of entries in head-to-tail order) and the
separately maintained `count`. -/
structure ScoreHistory where
  head : List ScoreEntry
  count : ℤ
deriving DecidableEq, Repr

/-- `ScoreHistory::AddScore` (scorehistory.cpp): insert a new node at the
head of the list and increment `count`. -/
def ScoreHistory.AddScore (h : ScoreHistory) (score height : ℤ) : ScoreHistory :=
  { head := { score := score, height := height } :: h.head, count := h.count + 1 }

/-- `ScoreHistory::GetCount` (scorehistory.cpp): returns `count`. -/
def ScoreHistory.GetCount (h : ScoreHistory) : ℤ := h.count

/-- `ScoreHistory::GetBestScore` (scorehistory.cpp): 0 on an empty list,
otherwise the maximum score found by traversal (scores are compared to a
running best initialized to 0). -/
def ScoreHistory.GetBestScore (h : ScoreHistory) : ℤ :=
  match h.head with
  | [] => 0
  | _ => h.head.foldl (fun best e => if e.score > best then e.score else best) 0

/-- Content of the string built by `ScoreHistory::GetTopScores`
(scorehistory.cpp): either the fixed empty-log message
`"No games played yet!"`, or the header plus the printed entries.
Only the sequence of `(score, height)` pairs actually printed is
modelled; the surrounding text is fixed formatting. -/
inductive TopScoresReport where
  | noGames : TopScoresReport
  | listing : List (ℤ × ℤ) → TopScoresReport
deriving DecidableEq, Repr

/-- `ScoreHistory::GetTopScores(int n)` (scorehistory.cpp): if the list is
empty return the message; otherwise collect every `(score, height)` pair,
sort descending by score (`std::sort` with `a.first > b.first`; ties in an
unspecified order, rendered here by mergeSort on the corresponding
non-strict comparator), and print the first `min(n, size)` entries —
the loop `for (i = 0; i < min(n, size); i++)` prints nothing when
`min(n, size) ≤ 0`. -/
def ScoreHistory.GetTopScores (h : ScoreHistory) (n : ℤ) : TopScoresReport :=
  match h.head with
  | [] => TopScoresReport.noGames
  | _ =>
    let scores := h.head.map (fun e => (e.score, e.height))
    let sorted := scores.mergeSort (fun a b => decide (b.1 ≤ a.1))
    TopScoresReport.listing (sorted.take (min n (scores.length : ℤ)).toNat)

/-- `class Game` state fields (game.h): the three data structures plus the
scalar session state.  `direction` is the `int` field (`1` right, `-1`
left). -/
structure Game where
  tower : Tower
  blockQueue : List Block
  scoreHistory : ScoreHistory
  currentBlock : Block
  gameOver : Bool
  isPaused : Bool
  score : ℤ
  consecutivePerfects : ℤ
  blockSpeed : ℚ
  direction : ℤ
deriving DecidableEq, Repr

/-- `Game::GetBlockColor` (game.cpp): `blockColors[index % 10]`, modelled
as the palette index `index % 10` (the palette is injective). -/
def GetBlockColor (index : ℤ) : ℤ := index % 10

/-- `Game::GenerateUpcomingBlocks(int count)` (game.cpp): `count`
iterations, each picking the width from the tower top (or
`INITIAL_BLOCK_WIDTH` when the tower is empty), the colour from
`tower.GetHeight() + blockQueue.size()`, the session speed, and pushing
the new block to the back of the queue. -/
def Game.GenerateUpcomingBlocks (g : Game) : ℕ → Game
  | 0 => g
  | n + 1 =>
    let width := match g.tower.towerStack with
      | [] => INITIAL_BLOCK_WIDTH
      | top :: _ => top.rect.width
    let newBlock := mkBlock 0 0 width BLOCK_HEIGHT
      (GetBlockColor (g.tower.GetHeight + (g.blockQueue.length : ℤ))) g.blockSpeed
    Game.GenerateUpcomingBlocks { g with blockQueue := g.blockQueue ++ [newBlock] } n

/-- `Game::SpawnNextBlock` (game.cpp): refill the queue with one block if
it is empty, take the front as the new current block, place it at
`(0, SCREEN_HEIGHT - 100 - towerHeight * BLOCK_HEIGHT)`, force
`isMoving = true` and the session speed, then generate one more upcoming
block.  The `[]` arm after the refill is dead code: the refill guarantees
a non-empty queue (`std::queue::front`/`pop` on an empty queue would be
undefined behaviour, and the source reaches neither). -/
def Game.SpawnNextBlock (g : Game) : Game :=
  let g1 := if g.blockQueue.isEmpty then g.GenerateUpcomingBlocks 1 else g
  match g1.blockQueue with
  | [] => g1
  | front :: rest =>
    let yPos := SCREEN_HEIGHT - 100 - ((g1.tower.GetHeight : ℚ) * BLOCK_HEIGHT)
    let cb := { front with
      rect := { front.rect with x := 0, y := yPos }
      isMoving := true
      speed := g1.blockSpeed }
    Game.GenerateUpcomingBlocks { g1 with currentBlock := cb, blockQueue := rest } 1

/-- `Game::CheckOverlap` (game.cpp): computes the out-parameters
`overlapStart = max(currentLeft, belowLeft)`,
`overlapEnd = min(currentRight, belowRight)` and returns
`overlapEnd > overlapStart`; rendered as the triple
(overlapStart, overlapEnd, returned bool). -/
def Game.CheckOverlap (current below : Block) : ℚ × ℚ × Bool :=
  let overlapStart := max current.GetLeft below.GetLeft
  let overlapEnd := min current.GetRight below.GetRight
  (overlapStart, overlapEnd, decide (overlapEnd > overlapStart))

/-- `Game::TrimAndStackBlock` (game.cpp).  The source first handles the
defensively-guarded empty tower, else reads `tower.Top()` (here: the head
of the stack, the `IsEmpty` test and the guarded `Top()` read rendered as
one match), calls `CheckOverlap`, ends the game on no overlap or on
`overlapWidth < originalWidth * 0.1f`, otherwise pushes the trimmed
block, scores it (`consecutivePerfects++` happens before the combo bonus
is read), ramps the speed when the new height is a multiple of 5, and
spawns the next block. -/
def Game.TrimAndStackBlock (g : Game) : Game :=
  match g.tower.towerStack with
  | [] =>
    Game.SpawnNextBlock { g with tower := g.tower.Push g.currentBlock, score := g.score + 10 }
  | topBlock :: _ =>
    let r := Game.CheckOverlap g.currentBlock topBlock
    let overlapStart := r.1
    let overlapEnd := r.2.1
    if r.2.2 then
      let overlapWidth := overlapEnd - overlapStart
      let originalWidth := g.currentBlock.rect.width
      if overlapWidth < originalWidth * (1 / 10) then
        { g with gameOver := true
                 scoreHistory := g.scoreHistory.AddScore g.score (g.tower.GetHeight - 1) }
      else
        let trimmedBlock := { g.currentBlock with
          rect := { g.currentBlock.rect with x := overlapStart, width := overlapWidth } }
        let g1 := { g with tower := g.tower.Push trimmedBlock }
        let accuracy := overlapWidth / originalWidth
        let isPerfect := |overlapWidth - originalWidth| < PERFECT_THRESHOLD
        let g2 : Game :=
          if isPerfect then
            { g1 with consecutivePerfects := g1.consecutivePerfects + 1
                      score := g1.score + (50 + (g1.consecutivePerfects + 1) * 10) }
          else
            { g1 with consecutivePerfects := 0
                      score := g1.score + (10 + cppFloatToInt (accuracy * 10)) }
        let g3 :=
          if g2.tower.GetHeight % 5 = 0 then
            { g2 with blockSpeed := g2.blockSpeed + SPEED_INCREMENT }
          else g2
        Game.SpawnNextBlock g3
    else
      { g with gameOver := true
               scoreHistory := g.scoreHistory.AddScore g.score (g.tower.GetHeight - 1) }

/-- `Game::DropBlock` (game.cpp): no-op unless the current block is
moving; otherwise freeze it and run `TrimAndStackBlock`. -/
def Game.DropBlock (g : Game) : Game :=
  if g.currentBlock.isMoving then
    Game.TrimAndStackBlock { g with currentBlock := { g.currentBlock with isMoving := false } }
  else g

/-- `Game::UpdateBlockMovement(float deltaTime)` (game.cpp): advance the
moving block by `blockSpeed * direction * deltaTime`, then bounce the
direction at the screen edges. -/
def Game.UpdateBlockMovement (g : Game) (deltaTime : ℚ) : Game :=
  if g.currentBlock.isMoving then
    let cb := { g.currentBlock with
      rect := { g.currentBlock.rect with
        x := g.currentBlock.rect.x + g.blockSpeed * (g.direction : ℚ) * deltaTime } }
    let g1 := { g with currentBlock := cb }
    if cb.GetRight ≥ SCREEN_WIDTH then { g1 with direction := -1 }
    else if cb.GetLeft ≤ 0 then { g1 with direction := 1 }
    else g1
  else g

/-- `Game::InitializeGame` (game.cpp): clear the tower, reset the scalar
session state, push the base block (constructed with speed 0 and then
explicitly forced non-moving), generate three upcoming blocks and spawn
the first current block.  Neither `blockQueue` nor `scoreHistory` is
touched before the generation step. -/
def Game.InitializeGame (g : Game) : Game :=
  let g1 := { g with
    tower := g.tower.Clear
    score := 0
    consecutivePerfects := 0
    blockSpeed := INITIAL_SPEED
    direction := 1
    gameOver := false }
  let baseBlock := { mkBlock (SCREEN_WIDTH / 2 - INITIAL_BLOCK_WIDTH / 2) (SCREEN_HEIGHT - 100)
      INITIAL_BLOCK_WIDTH BLOCK_HEIGHT (GetBlockColor 0) 0 with isMoving := false }
  let g2 := { g1 with tower := g1.tower.Push baseBlock }
  Game.SpawnNextBlock (g2.GenerateUpcomingBlocks 3)

/-- The member-initializer state of `Game::Game()` (game.cpp) before the
constructor body runs `InitializeGame()`: default-constructed containers
and current block, `gameOver(false), isPaused(false), score(0),
consecutivePerfects(0), blockSpeed(INITIAL_SPEED), direction(1)`. -/
def Game.initialState : Game :=
  { tower := Tower.new
    blockQueue := []
    scoreHistory := { head := [], count := 0 }
    currentBlock := defaultBlock
    gameOver := false
    isPaused := false
    score := 0
    consecutivePerfects := 0
    blockSpeed := INITIAL_SPEED
    direction := 1 }

/-- `Game::Game()` (game.cpp): the member initializers followed by
`InitializeGame()`. -/
def Game.new : Game := Game.initialState.InitializeGame

/-- `Game::Update` (game.cpp) for one frame, with the edge-triggered key
states (`IsKeyPressed(KEY_R/KEY_P/KEY_SPACE)`) and `GetFrameTime()`
supplied by the platform layer passed in as arguments. -/
def Game.Update (g : Game) (rPressed pPressed spacePressed : Bool)
    (deltaTime : ℚ) : Game :=
  if g.gameOver then
    if rPressed then g.InitializeGame else g
  else
    let g1 := if pPressed then { g with isPaused := !g.isPaused } else g
    if g1.isPaused then g1
    else
      let g2 := g1.UpdateBlockMovement deltaTime
      if spacePressed then g2.DropBlock else g2

/-- The per-frame inputs of one `Game::Update` call. -/
structure FrameInput where
  rPressed : Bool
  pPressed : Bool
  spacePressed : Bool
  deltaTime : ℚ
deriving DecidableEq, Repr

/-- Run `Game::Update` over a list of frames (the main loop of main.cpp,
with rendering omitted). -/
def Game.runUpdates (g : Game) : List FrameInput → Game
  | [] => g
  | i :: is => (g.Update i.rPressed i.pPressed i.spacePressed i.deltaTime).runUpdates is


/-! ## Sample states used by the witnesses -/

/-- The base block of the sample tower: width 200 spanning x = 300..500. -/
def baseB : Block := { mkBlock 300 470 200 30 0 0 with isMoving := false }

/-- A one-block tower holding `baseB`. -/
def sampleTower : Tower := { towerStack := [baseB], height := 1 }

/-- A mid-game state over `sampleTower` whose frozen current block sits at
`x = cbx` with width `cbw`, as it is when `DropBlock` has just frozen it
and `TrimAndStackBlock` is about to run. -/
def mkSample (cbx cbw : ℚ) : Game :=
  { tower := sampleTower
    blockQueue := [mkBlock 0 0 200 30 2 150]
    scoreHistory := { head := [], count := 0 }
    currentBlock := { mkBlock cbx 440 cbw 30 1 150 with isMoving := false }
    gameOver := false
    isPaused := false
    score := 0
    consecutivePerfects := 0
    blockSpeed := 150
    direction := 1 }

/-! ## Field-preservation lemmas for the spawn pipeline -/

lemma generate_tower (n : ℕ) : ∀ g : Game, (g.GenerateUpcomingBlocks n).tower = g.tower := by
  induction n with
  | zero => intro g; rfl
  | succ n ih => intro g; simp only [Game.GenerateUpcomingBlocks]; exact ih _

lemma generate_score (n : ℕ) : ∀ g : Game, (g.GenerateUpcomingBlocks n).score = g.score := by
  induction n with
  | zero => intro g; rfl
  | succ n ih => intro g; simp only [Game.GenerateUpcomingBlocks]; exact ih _

lemma generate_perfects (n : ℕ) :
    ∀ g : Game, (g.GenerateUpcomingBlocks n).consecutivePerfects = g.consecutivePerfects := by
  induction n with
  | zero => intro g; rfl
  | succ n ih => intro g; simp only [Game.GenerateUpcomingBlocks]; exact ih _

lemma generate_speed (n : ℕ) : ∀ g : Game, (g.GenerateUpcomingBlocks n).blockSpeed = g.blockSpeed := by
  induction n with
  | zero => intro g; rfl
  | succ n ih => intro g; simp only [Game.GenerateUpcomingBlocks]; exact ih _

lemma generate_gameOver (n : ℕ) : ∀ g : Game, (g.GenerateUpcomingBlocks n).gameOver = g.gameOver := by
  induction n with
  | zero => intro g; rfl
  | succ n ih => intro g; simp only [Game.GenerateUpcomingBlocks]; exact ih _

lemma generate_history (n : ℕ) :
    ∀ g : Game, (g.GenerateUpcomingBlocks n).scoreHistory = g.scoreHistory := by
  induction n with
  | zero => intro g; rfl
  | succ n ih => intro g; simp only [Game.GenerateUpcomingBlocks]; exact ih _

lemma generate_direction (n : ℕ) : ∀ g : Game, (g.GenerateUpcomingBlocks n).direction = g.direction := by
  induction n with
  | zero => intro g; rfl
  | succ n ih => intro g; simp only [Game.GenerateUpcomingBlocks]; exact ih _

lemma generate_current (n : ℕ) :
    ∀ g : Game, (g.GenerateUpcomingBlocks n).currentBlock = g.currentBlock := by
  induction n with
  | zero => intro g; rfl
  | succ n ih => intro g; simp only [Game.GenerateUpcomingBlocks]; exact ih _

lemma generate_queue_len (n : ℕ) :
    ∀ g : Game, (g.GenerateUpcomingBlocks n).blockQueue.length = g.blockQueue.length + n := by
  induction n with
  | zero => intro g; rfl
  | succ n ih =>
    intro g
    simp only [Game.GenerateUpcomingBlocks]
    rw [ih]
    simp
    omega

lemma spawn_tower (g : Game) : (g.SpawnNextBlock).tower = g.tower := by
  unfold Game.SpawnNextBlock
  cases hq : g.blockQueue with
  | nil => simp [hq, Game.GenerateUpcomingBlocks, generate_tower]
  | cons b bs => simp [hq, Game.GenerateUpcomingBlocks, generate_tower]

lemma spawn_score (g : Game) : (g.SpawnNextBlock).score = g.score := by
  unfold Game.SpawnNextBlock
  cases hq : g.blockQueue with
  | nil => simp [hq, Game.GenerateUpcomingBlocks, generate_score]
  | cons b bs => simp [hq, Game.GenerateUpcomingBlocks, generate_score]

lemma spawn_perfects (g : Game) :
    (g.SpawnNextBlock).consecutivePerfects = g.consecutivePerfects := by
  unfold Game.SpawnNextBlock
  cases hq : g.blockQueue with
  | nil => simp [hq, Game.GenerateUpcomingBlocks, generate_perfects]
  | cons b bs => simp [hq, Game.GenerateUpcomingBlocks, generate_perfects]

lemma spawn_speed (g : Game) : (g.SpawnNextBlock).blockSpeed = g.blockSpeed := by
  unfold Game.SpawnNextBlock
  cases hq : g.blockQueue with
  | nil => simp [hq, Game.GenerateUpcomingBlocks, generate_speed]
  | cons b bs => simp [hq, Game.GenerateUpcomingBlocks, generate_speed]

lemma spawn_gameOver (g : Game) : (g.SpawnNextBlock).gameOver = g.gameOver := by
  unfold Game.SpawnNextBlock
  cases hq : g.blockQueue with
  | nil => simp [hq, Game.GenerateUpcomingBlocks, generate_gameOver]
  | cons b bs => simp [hq, Game.GenerateUpcomingBlocks, generate_gameOver]

lemma spawn_history (g : Game) : (g.SpawnNextBlock).scoreHistory = g.scoreHistory := by
  unfold Game.SpawnNextBlock
  cases hq : g.blockQueue with
  | nil => simp [hq, Game.GenerateUpcomingBlocks, generate_history]
  | cons b bs => simp [hq, Game.GenerateUpcomingBlocks, generate_history]

lemma spawn_direction (g : Game) : (g.SpawnNextBlock).direction = g.direction := by
  unfold Game.SpawnNextBlock
  cases hq : g.blockQueue with
  | nil => simp [hq, Game.GenerateUpcomingBlocks, generate_direction]
  | cons b bs => simp [hq, Game.GenerateUpcomingBlocks, generate_direction]

lemma spawn_queue_len (g : Game) (hq : g.blockQueue ≠ []) :
    (g.SpawnNextBlock).blockQueue.length = g.blockQueue.length := by
  unfold Game.SpawnNextBlock
  cases hqe : g.blockQueue with
  | nil => exact absurd hqe hq
  | cons b bs => simp [hqe, generate_queue_len]

/-! ## The two outcomes of `TrimAndStackBlock` on a non-empty tower -/

lemma trim_and_stack_miss (g : Game) (topBlock : Block) (rest : List Block)
    (hstack : g.tower.towerStack = topBlock :: rest)
    (hmiss : min g.currentBlock.GetRight topBlock.GetRight
        ≤ max g.currentBlock.GetLeft topBlock.GetLeft
      ∨ min g.currentBlock.GetRight topBlock.GetRight
          - max g.currentBlock.GetLeft topBlock.GetLeft
        < g.currentBlock.rect.width * (1 / 10)) :
    g.TrimAndStackBlock =
      { g with gameOver := true
               scoreHistory := g.scoreHistory.AddScore g.score (g.tower.GetHeight - 1) } := by
  unfold Game.TrimAndStackBlock
  rw [hstack]
  dsimp only [Game.CheckOverlap]
  rcases hmiss with h | h
  · rw [if_neg (fun hc => absurd (of_decide_eq_true hc) (not_lt.mpr h))]
  · by_cases h2 : max g.currentBlock.GetLeft topBlock.GetLeft
        < min g.currentBlock.GetRight topBlock.GetRight
    · rw [if_pos (decide_eq_true h2), if_pos h]
    · rw [if_neg (fun hc => absurd (of_decide_eq_true hc) h2)]

lemma trim_and_stack_success (g : Game) (topBlock : Block) (rest : List Block)
    (hstack : g.tower.towerStack = topBlock :: rest)
    (hov : max g.currentBlock.GetLeft topBlock.GetLeft
      < min g.currentBlock.GetRight topBlock.GetRight)
    (hw : ¬(min g.currentBlock.GetRight topBlock.GetRight
        - max g.currentBlock.GetLeft topBlock.GetLeft
      < g.currentBlock.rect.width * (1 / 10))) :
    g.TrimAndStackBlock = Game.SpawnNextBlock
      { g with
        tower := g.tower.Push { g.currentBlock with rect := { g.currentBlock.rect with
          x := max g.currentBlock.GetLeft topBlock.GetLeft,
          width := min g.currentBlock.GetRight topBlock.GetRight
            - max g.currentBlock.GetLeft topBlock.GetLeft } }
        consecutivePerfects :=
          if |min g.currentBlock.GetRight topBlock.GetRight
              - max g.currentBlock.GetLeft topBlock.GetLeft - g.currentBlock.rect.width|
              < PERFECT_THRESHOLD
          then g.consecutivePerfects + 1 else 0
        score :=
          if |min g.currentBlock.GetRight topBlock.GetRight
              - max g.currentBlock.GetLeft topBlock.GetLeft - g.currentBlock.rect.width|
              < PERFECT_THRESHOLD
          then g.score + (50 + (g.consecutivePerfects + 1) * 10)
          else g.score + (10 + cppFloatToInt ((min g.currentBlock.GetRight topBlock.GetRight
            - max g.currentBlock.GetLeft topBlock.GetLeft) / g.currentBlock.rect.width * 10))
        blockSpeed :=
          if (g.tower.height + 1) % 5 = 0 then g.blockSpeed + SPEED_INCREMENT
          else g.blockSpeed } := by
  unfold Game.TrimAndStackBlock
  rw [hstack]
  dsimp only [Game.CheckOverlap]
  rw [if_pos (decide_eq_true hov), if_neg hw]
  by_cases hp : |min g.currentBlock.GetRight topBlock.GetRight
      - max g.currentBlock.GetLeft topBlock.GetLeft - g.currentBlock.rect.width|
      < PERFECT_THRESHOLD
  · rw [if_pos hp, if_pos hp, if_pos hp]
    dsimp only [Tower.Push, Tower.GetHeight]
    by_cases hr : (g.tower.height + 1) % 5 = 0
    · rw [if_pos hr, if_pos hr]
    · rw [if_neg hr, if_neg hr]
  · rw [if_neg hp, if_neg hp, if_neg hp]
    dsimp only [Tower.Push, Tower.GetHeight]
    by_cases hr : (g.tower.height + 1) % 5 = 0
    · rw [if_pos hr, if_pos hr]
    · rw [if_neg hr, if_neg hr]

/-! ## Claim C1 -/

/-- C1: on a drop with a non-empty tower, when
`overlapStart = max(current left, top left)` and
`overlapEnd = min(current right, top right)` satisfy
`overlapEnd > overlapStart` and
`overlapWidth = overlapEnd - overlapStart ≥ 0.10 * original width`,
`TrimAndStackBlock` pushes onto the tower the current block with
`x := overlapStart` and `width := overlapWidth`, the tower height grows by
exactly 1, and `gameOver` stays `false`. -/
theorem c1_success_pushes_trimmed_block (g : Game) (topBlock : Block) (rest : List Block)
    (hstack : g.tower.towerStack = topBlock :: rest)
    (hgo : g.gameOver = false)
    (hov : max g.currentBlock.GetLeft topBlock.GetLeft
      < min g.currentBlock.GetRight topBlock.GetRight)
    (hw : g.currentBlock.rect.width * (1 / 10)
      ≤ min g.currentBlock.GetRight topBlock.GetRight
        - max g.currentBlock.GetLeft topBlock.GetLeft) :
    g.TrimAndStackBlock.tower.towerStack =
      { g.currentBlock with rect := { g.currentBlock.rect with
          x := max g.currentBlock.GetLeft topBlock.GetLeft,
          width := min g.currentBlock.GetRight topBlock.GetRight
            - max g.currentBlock.GetLeft topBlock.GetLeft } } :: g.tower.towerStack
    ∧ g.TrimAndStackBlock.tower.GetHeight = g.tower.GetHeight + 1
    ∧ g.TrimAndStackBlock.gameOver = false := by
  rw [trim_and_stack_success g topBlock rest hstack hov (not_lt.mpr hw)]
  refine ⟨?_, ?_, ?_⟩
  · rw [spawn_tower]
    rfl
  · rw [spawn_tower]
    rfl
  · rw [spawn_gameOver]
    exact hgo

unseal Rat.mul Rat.add Rat.sub Rat.inv in
theorem c1_witness :
    (mkSample 350 200).tower.towerStack = baseB :: []
    ∧ (mkSample 350 200).gameOver = false
    ∧ max (mkSample 350 200).currentBlock.GetLeft baseB.GetLeft
        < min (mkSample 350 200).currentBlock.GetRight baseB.GetRight
    ∧ (mkSample 350 200).currentBlock.rect.width * (1 / 10)
        ≤ min (mkSample 350 200).currentBlock.GetRight baseB.GetRight
          - max (mkSample 350 200).currentBlock.GetLeft baseB.GetLeft
    ∧ ((mkSample 350 200).TrimAndStackBlock.tower.towerStack =
        { (mkSample 350 200).currentBlock with rect := { (mkSample 350 200).currentBlock.rect with
            x := max (mkSample 350 200).currentBlock.GetLeft baseB.GetLeft,
            width := min (mkSample 350 200).currentBlock.GetRight baseB.GetRight
              - max (mkSample 350 200).currentBlock.GetLeft baseB.GetLeft } }
          :: (mkSample 350 200).tower.towerStack
      ∧ (mkSample 350 200).TrimAndStackBlock.tower.GetHeight
          = (mkSample 350 200).tower.GetHeight + 1
      ∧ (mkSample 350 200).TrimAndStackBlock.gameOver = false) :=
  ⟨by decide, by decide, by decide, by decide,
    c1_success_pushes_trimmed_block (mkSample 350 200) baseB []
      (by decide) (by decide) (by decide) (by decide)⟩

/-! ## Claim C2 -/

/-- C2: on a drop with a non-empty tower where `overlapEnd ≤ overlapStart`
or `overlapWidth < 0.10 * original width`, `TrimAndStackBlock` sets
`gameOver`, prepend-appends exactly one entry `{score, towerHeight - 1}`
to the score history, and leaves the tower, the score, the combo counter
and the block speed unchanged. -/
theorem c2_miss_ends_game (g : Game) (topBlock : Block) (rest : List Block)
    (hstack : g.tower.towerStack = topBlock :: rest)
    (hmiss : min g.currentBlock.GetRight topBlock.GetRight
        ≤ max g.currentBlock.GetLeft topBlock.GetLeft
      ∨ min g.currentBlock.GetRight topBlock.GetRight
          - max g.currentBlock.GetLeft topBlock.GetLeft
        < g.currentBlock.rect.width * (1 / 10)) :
    g.TrimAndStackBlock.gameOver = true
    ∧ g.TrimAndStackBlock.scoreHistory.head =
        { score := g.score, height := g.tower.GetHeight - 1 } :: g.scoreHistory.head
    ∧ g.TrimAndStackBlock.scoreHistory.count = g.scoreHistory.count + 1
    ∧ g.TrimAndStackBlock.tower = g.tower
    ∧ g.TrimAndStackBlock.score = g.score
    ∧ g.TrimAndStackBlock.consecutivePerfects = g.consecutivePerfects
    ∧ g.TrimAndStackBlock.blockSpeed = g.blockSpeed := by
  rw [trim_and_stack_miss g topBlock rest hstack hmiss]
  exact ⟨rfl, rfl, rfl, rfl, rfl, rfl, rfl⟩

unseal Rat.mul Rat.add Rat.sub Rat.inv in
theorem c2_witness :
    (mkSample 520 200).tower.towerStack = baseB :: []
    ∧ (min (mkSample 520 200).currentBlock.GetRight baseB.GetRight
          ≤ max (mkSample 520 200).currentBlock.GetLeft baseB.GetLeft
        ∨ min (mkSample 520 200).currentBlock.GetRight baseB.GetRight
            - max (mkSample 520 200).currentBlock.GetLeft baseB.GetLeft
          < (mkSample 520 200).currentBlock.rect.width * (1 / 10))
    ∧ ((mkSample 520 200).TrimAndStackBlock.gameOver = true
      ∧ (mkSample 520 200).TrimAndStackBlock.scoreHistory.head =
          { score := (mkSample 520 200).score, height := (mkSample 520 200).tower.GetHeight - 1 }
            :: (mkSample 520 200).scoreHistory.head
      ∧ (mkSample 520 200).TrimAndStackBlock.scoreHistory.count
          = (mkSample 520 200).scoreHistory.count + 1
      ∧ (mkSample 520 200).TrimAndStackBlock.tower = (mkSample 520 200).tower
      ∧ (mkSample 520 200).TrimAndStackBlock.score = (mkSample 520 200).score
      ∧ (mkSample 520 200).TrimAndStackBlock.consecutivePerfects
          = (mkSample 520 200).consecutivePerfects
      ∧ (mkSample 520 200).TrimAndStackBlock.blockSpeed = (mkSample 520 200).blockSpeed) :=
  ⟨by decide, by decide,
    c2_miss_ends_game (mkSample 520 200) baseB [] (by decide) (by decide)⟩

/-! ## Claim C3 -/

lemma cppFloatToInt_of_nonneg (q : ℚ) (h : 0 ≤ q) : cppFloatToInt q = Int.floor q := by
  unfold cppFloatToInt
  rw [if_neg (not_lt.mpr h)]

lemma current_width_pos (g : Game) (topBlock : Block)
    (hov : max g.currentBlock.GetLeft topBlock.GetLeft
      < min g.currentBlock.GetRight topBlock.GetRight) :
    0 < g.currentBlock.rect.width := by
  have h1 : min g.currentBlock.GetRight topBlock.GetRight ≤ g.currentBlock.GetRight :=
    min_le_left _ _
  have h2 : g.currentBlock.GetLeft ≤ max g.currentBlock.GetLeft topBlock.GetLeft :=
    le_max_left _ _
  have h3 : g.currentBlock.GetLeft < g.currentBlock.GetRight :=
    lt_of_le_of_lt h2 (lt_of_lt_of_le hov h1)
  unfold Block.GetLeft Block.GetRight at h3
  linarith

/-- C3: on a successful drop onto a non-empty tower, the drop is perfect
exactly when `|overlapWidth - originalWidth| < 5`; a perfect drop bumps
`consecutivePerfects` by 1 and adds `50 + 10 * (new consecutivePerfects)`
to the score, a non-perfect drop resets `consecutivePerfects` to 0 and
adds `10 + floor(10 * (overlapWidth / originalWidth))`. -/
theorem c3_combo_scoring (g : Game) (topBlock : Block) (rest : List Block)
    (hstack : g.tower.towerStack = topBlock :: rest)
    (hov : max g.currentBlock.GetLeft topBlock.GetLeft
      < min g.currentBlock.GetRight topBlock.GetRight)
    (hw : g.currentBlock.rect.width * (1 / 10)
      ≤ min g.currentBlock.GetRight topBlock.GetRight
        - max g.currentBlock.GetLeft topBlock.GetLeft) :
    ((|min g.currentBlock.GetRight topBlock.GetRight
        - max g.currentBlock.GetLeft topBlock.GetLeft - g.currentBlock.rect.width| < (5 : ℚ)) →
      g.TrimAndStackBlock.consecutivePerfects = g.consecutivePerfects + 1
      ∧ g.TrimAndStackBlock.score = g.score + (50 + 10 * (g.consecutivePerfects + 1)))
    ∧ (¬(|min g.currentBlock.GetRight topBlock.GetRight
        - max g.currentBlock.GetLeft topBlock.GetLeft - g.currentBlock.rect.width| < (5 : ℚ)) →
      g.TrimAndStackBlock.consecutivePerfects = 0
      ∧ g.TrimAndStackBlock.score = g.score
          + (10 + Int.floor ((10 : ℚ) * ((min g.currentBlock.GetRight topBlock.GetRight
            - max g.currentBlock.GetLeft topBlock.GetLeft) / g.currentBlock.rect.width)))) := by
  have hres := trim_and_stack_success g topBlock rest hstack hov (not_lt.mpr hw)
  constructor
  · intro hp
    constructor
    · rw [hres, spawn_perfects]
      dsimp only
      unfold PERFECT_THRESHOLD
      rw [if_pos hp]
    · rw [hres, spawn_score]
      dsimp only
      unfold PERFECT_THRESHOLD
      rw [if_pos hp]
      ring
  · intro hp
    constructor
    · rw [hres, spawn_perfects]
      dsimp only
      unfold PERFECT_THRESHOLD
      rw [if_neg hp]
    · rw [hres, spawn_score]
      dsimp only
      unfold PERFECT_THRESHOLD
      rw [if_neg hp]
      have hwpos := current_width_pos g topBlock hov
      have howpos : 0 < min g.currentBlock.GetRight topBlock.GetRight
          - max g.currentBlock.GetLeft topBlock.GetLeft := sub_pos.mpr hov
      rw [cppFloatToInt_of_nonneg _
        (le_of_lt (mul_pos (div_pos howpos hwpos) (by norm_num)))]
      rw [mul_comm ((min g.currentBlock.GetRight topBlock.GetRight
        - max g.currentBlock.GetLeft topBlock.GetLeft) / g.currentBlock.rect.width) (10 : ℚ)]

unseal Rat.mul Rat.add Rat.sub Rat.inv in
theorem c3_witness :
    (mkSample 300 200).tower.towerStack = baseB :: []
    ∧ max (mkSample 300 200).currentBlock.GetLeft baseB.GetLeft
        < min (mkSample 300 200).currentBlock.GetRight baseB.GetRight
    ∧ (mkSample 300 200).currentBlock.rect.width * (1 / 10)
        ≤ min (mkSample 300 200).currentBlock.GetRight baseB.GetRight
          - max (mkSample 300 200).currentBlock.GetLeft baseB.GetLeft
    ∧ (|min (mkSample 300 200).currentBlock.GetRight baseB.GetRight
        - max (mkSample 300 200).currentBlock.GetLeft baseB.GetLeft
        - (mkSample 300 200).currentBlock.rect.width| < (5 : ℚ))
    ∧ ((mkSample 300 200).TrimAndStackBlock.consecutivePerfects
          = (mkSample 300 200).consecutivePerfects + 1
      ∧ (mkSample 300 200).TrimAndStackBlock.score
          = (mkSample 300 200).score + (50 + 10 * ((mkSample 300 200).consecutivePerfects + 1))) :=
  ⟨by decide, by decide, by decide, by decide,
    (c3_combo_scoring (mkSample 300 200) baseB [] (by decide) (by decide) (by decide)).1
      (by decide)⟩

/-! ## Claim C4 -/

lemma initialize_speed (g : Game) : (g.InitializeGame).blockSpeed = INITIAL_SPEED := by
  unfold Game.InitializeGame
  rw [spawn_speed, generate_speed]

lemma trim_speed_le (g : Game) : g.blockSpeed ≤ g.TrimAndStackBlock.blockSpeed := by
  cases hstack : g.tower.towerStack with
  | nil =>
    unfold Game.TrimAndStackBlock
    rw [hstack]
    rw [spawn_speed]
  | cons topB rest =>
    by_cases hov : max g.currentBlock.GetLeft topB.GetLeft
        < min g.currentBlock.GetRight topB.GetRight
    · by_cases hw : min g.currentBlock.GetRight topB.GetRight
          - max g.currentBlock.GetLeft topB.GetLeft
          < g.currentBlock.rect.width * (1 / 10)
      · rw [trim_and_stack_miss g topB rest hstack (Or.inr hw)]
      · rw [trim_and_stack_success g topB rest hstack hov hw, spawn_speed]
        dsimp only
        by_cases hr : (g.tower.height + 1) % 5 = 0
        · rw [if_pos hr]
          have h15 : (0 : ℚ) ≤ SPEED_INCREMENT := by norm_num [SPEED_INCREMENT]
          linarith
        · rw [if_neg hr]
    · rw [trim_and_stack_miss g topB rest hstack (Or.inl (not_lt.mp hov))]

lemma movement_speed (g : Game) (dt : ℚ) :
    (g.UpdateBlockMovement dt).blockSpeed = g.blockSpeed := by
  unfold Game.UpdateBlockMovement
  by_cases hm : g.currentBlock.isMoving = true
  · rw [if_pos hm]
    dsimp only
    split_ifs <;> rfl
  · rw [if_neg hm]

lemma drop_speed_le (g : Game) : g.blockSpeed ≤ g.DropBlock.blockSpeed := by
  unfold Game.DropBlock
  by_cases hm : g.currentBlock.isMoving = true
  · rw [if_pos hm]
    exact trim_speed_le { g with currentBlock := { g.currentBlock with isMoving := false } }
  · rw [if_neg hm]

lemma update_speed_ge (g : Game) (r p s : Bool) (dt : ℚ)
    (h : INITIAL_SPEED ≤ g.blockSpeed) :
    INITIAL_SPEED ≤ (g.Update r p s dt).blockSpeed := by
  unfold Game.Update
  by_cases hgo : g.gameOver = true
  · rw [if_pos hgo]
    by_cases hr : r = true
    · rw [if_pos hr, initialize_speed]
    · rw [if_neg hr]
      exact h
  · rw [if_neg hgo]
    dsimp only
    set g1 := if p = true then { g with isPaused := !g.isPaused } else g with hg1
    have hsp1 : g1.blockSpeed = g.blockSpeed := by
      rw [hg1]
      by_cases hp : p = true
      · rw [if_pos hp]
      · rw [if_neg hp]
    by_cases hip : g1.isPaused = true
    · rw [if_pos hip, hsp1]
      exact h
    · rw [if_neg hip]
      have hmov : (g1.UpdateBlockMovement dt).blockSpeed = g.blockSpeed := by
        rw [movement_speed, hsp1]
      by_cases hs : s = true
      · rw [if_pos hs]
        calc INITIAL_SPEED ≤ (g1.UpdateBlockMovement dt).blockSpeed := by
              rw [hmov]; exact h
          _ ≤ ((g1.UpdateBlockMovement dt).DropBlock).blockSpeed := drop_speed_le _
      · rw [if_neg hs, hmov]
        exact h

lemma run_speed_ge :
    ∀ (inputs : List FrameInput) (g : Game),
      INITIAL_SPEED ≤ g.blockSpeed → INITIAL_SPEED ≤ (g.runUpdates inputs).blockSpeed := by
  intro inputs
  induction inputs with
  | nil => intro g h; exact h
  | cons i is ih =>
    intro g h
    exact ih _ (update_speed_ge g _ _ _ _ h)

/-- C4: on a successful drop the block speed grows by the fixed increment
exactly when the resulting tower height (including the base) is a multiple
of 5, and is unchanged otherwise; consequently, from any `InitializeGame`
on, the block speed never falls below the initial speed whatever input
frames the session processes. -/
theorem c4_speed_ramp :
    (∀ (g : Game) (topBlock : Block) (rest : List Block),
      g.tower.towerStack = topBlock :: rest →
      max g.currentBlock.GetLeft topBlock.GetLeft
        < min g.currentBlock.GetRight topBlock.GetRight →
      g.currentBlock.rect.width * (1 / 10)
        ≤ min g.currentBlock.GetRight topBlock.GetRight
          - max g.currentBlock.GetLeft topBlock.GetLeft →
      (g.TrimAndStackBlock.tower.GetHeight % 5 = 0 →
        g.TrimAndStackBlock.blockSpeed = g.blockSpeed + SPEED_INCREMENT)
      ∧ (g.TrimAndStackBlock.tower.GetHeight % 5 ≠ 0 →
        g.TrimAndStackBlock.blockSpeed = g.blockSpeed))
    ∧ ∀ (g : Game) (inputs : List FrameInput),
        INITIAL_SPEED ≤ ((g.InitializeGame).runUpdates inputs).blockSpeed := by
  constructor
  · intro g topBlock rest hstack hov hw
    have hres := trim_and_stack_success g topBlock rest hstack hov (not_lt.mpr hw)
    have hh : g.TrimAndStackBlock.tower.GetHeight = g.tower.height + 1 := by
      rw [hres, spawn_tower]
      rfl
    constructor
    · intro hc
      rw [hh] at hc
      rw [hres, spawn_speed]
      dsimp only
      rw [if_pos hc]
    · intro hc
      rw [hh] at hc
      rw [hres, spawn_speed]
      dsimp only
      rw [if_neg hc]
  · intro g inputs
    exact run_speed_ge inputs _ (le_of_eq (initialize_speed g).symm)

unseal Rat.mul Rat.add Rat.sub Rat.inv in
theorem c4_witness :
    (mkSample 350 200).tower.towerStack = baseB :: []
    ∧ max (mkSample 350 200).currentBlock.GetLeft baseB.GetLeft
        < min (mkSample 350 200).currentBlock.GetRight baseB.GetRight
    ∧ (mkSample 350 200).currentBlock.rect.width * (1 / 10)
        ≤ min (mkSample 350 200).currentBlock.GetRight baseB.GetRight
          - max (mkSample 350 200).currentBlock.GetLeft baseB.GetLeft
    ∧ (mkSample 350 200).TrimAndStackBlock.tower.GetHeight % 5 ≠ 0
    ∧ (mkSample 350 200).TrimAndStackBlock.blockSpeed = (mkSample 350 200).blockSpeed
    ∧ INITIAL_SPEED ≤ ((Game.initialState.InitializeGame).runUpdates []).blockSpeed :=
  ⟨by decide, by decide, by decide, by decide,
    (c4_speed_ramp.1 (mkSample 350 200) baseB [] (by decide) (by decide) (by decide)).2
      (by decide),
    c4_speed_ramp.2 Game.initialState []⟩

/-! ## Facts about `InitializeGame` -/

lemma initialize_history (g : Game) : (g.InitializeGame).scoreHistory = g.scoreHistory := by
  unfold Game.InitializeGame
  rw [spawn_history, generate_history]

lemma initialize_tower (g : Game) : (g.InitializeGame).tower =
    { towerStack := [{ mkBlock (SCREEN_WIDTH / 2 - INITIAL_BLOCK_WIDTH / 2) (SCREEN_HEIGHT - 100)
        INITIAL_BLOCK_WIDTH BLOCK_HEIGHT (GetBlockColor 0) 0 with isMoving := false }],
      height := 1 } := by
  unfold Game.InitializeGame
  rw [spawn_tower, generate_tower]
  rfl

lemma initialize_score (g : Game) : (g.InitializeGame).score = 0 := by
  unfold Game.InitializeGame
  rw [spawn_score, generate_score]

lemma initialize_perfects (g : Game) : (g.InitializeGame).consecutivePerfects = 0 := by
  unfold Game.InitializeGame
  rw [spawn_perfects, generate_perfects]

lemma initialize_direction (g : Game) : (g.InitializeGame).direction = 1 := by
  unfold Game.InitializeGame
  rw [spawn_direction, generate_direction]

lemma initialize_gameOver (g : Game) : (g.InitializeGame).gameOver = false := by
  unfold Game.InitializeGame
  rw [spawn_gameOver, generate_gameOver]

/-! ## Claim C5 -/

lemma initialize_queue_len (g : Game) :
    (g.InitializeGame).blockQueue.length = g.blockQueue.length + 3 := by
  unfold Game.InitializeGame
  have h3 := generate_queue_len 3
    { g with
      tower := (g.tower.Clear).Push { mkBlock (SCREEN_WIDTH / 2 - INITIAL_BLOCK_WIDTH / 2)
        (SCREEN_HEIGHT - 100) INITIAL_BLOCK_WIDTH BLOCK_HEIGHT (GetBlockColor 0) 0
        with isMoving := false }
      score := 0
      consecutivePerfects := 0
      blockSpeed := INITIAL_SPEED
      direction := 1
      gameOver := false }
  rw [spawn_queue_len _ (List.length_pos.mp (by rw [h3]; omega)), h3]

/-- C5 (amended): `InitializeGame` does not clear the pending queue, so a
completed `InitializeGame` leaves the queue with its previous length plus
3; when the queue was empty beforehand (the fresh-construction case) the
queue ends up with exactly 3 items, each of width equal to the
top-of-tower width `INITIAL_BLOCK_WIDTH`. -/
theorem c5_queue_after_reset :
    (∀ g : Game, (g.InitializeGame).blockQueue.length = g.blockQueue.length + 3)
    ∧ ∀ g : Game, g.blockQueue = [] →
        (g.InitializeGame).blockQueue.length = 3
        ∧ ∀ b ∈ (g.InitializeGame).blockQueue, b.rect.width = INITIAL_BLOCK_WIDTH := by
  constructor
  · exact initialize_queue_len
  · intro g hq
    constructor
    · rw [initialize_queue_len, hq]
      rfl
    · intro b hb
      simp [Game.InitializeGame, Game.GenerateUpcomingBlocks, Game.SpawnNextBlock,
        Tower.Clear, Tower.Push, Tower.GetHeight, Tower.IsEmpty, mkBlock, GetBlockColor,
        hq] at hb
      rcases hb with rfl | rfl | rfl <;> rfl

theorem c5_witness :
    Game.initialState.blockQueue = []
    ∧ ((Game.initialState.InitializeGame).blockQueue.length = 3
      ∧ ∀ b ∈ (Game.initialState.InitializeGame).blockQueue,
          b.rect.width = INITIAL_BLOCK_WIDTH) :=
  ⟨rfl, c5_queue_after_reset.2 Game.initialState rfl⟩

unseal Rat.mul Rat.add Rat.sub Rat.inv in
/-- C5 counterexample: from a fresh session, a missed drop (space with the
block at the left edge, no overlap with the base) ends the game, and the
restart (`R` while game over) runs `InitializeGame` without clearing the
queue: the queue then holds 6 items, not the fixed preview depth 3. -/
theorem c5_counterexample :
    (Game.new.Update false false true 0).gameOver = true
    ∧ ((Game.new.Update false false true 0).Update true false false 0).blockQueue.length ≠ 3 := by
  constructor
  · decide
  · decide

/-! ## Claim C6 -/

/-- C6: a restart (`R` pressed while `gameOver`) leaves the score history
completely unchanged while resetting the tower to the single base block,
the score to 0, the combo counter to 0, the speed to the initial speed,
the direction to `+1` and `gameOver` to `false`. -/
theorem c6_restart_preserves_history (g : Game) (p s : Bool) (dt : ℚ)
    (hgo : g.gameOver = true) :
    (g.Update true p s dt).scoreHistory = g.scoreHistory
    ∧ (g.Update true p s dt).tower.towerStack =
        [{ mkBlock (SCREEN_WIDTH / 2 - INITIAL_BLOCK_WIDTH / 2) (SCREEN_HEIGHT - 100)
            INITIAL_BLOCK_WIDTH BLOCK_HEIGHT (GetBlockColor 0) 0 with isMoving := false }]
    ∧ (g.Update true p s dt).score = 0
    ∧ (g.Update true p s dt).consecutivePerfects = 0
    ∧ (g.Update true p s dt).blockSpeed = INITIAL_SPEED
    ∧ (g.Update true p s dt).direction = 1
    ∧ (g.Update true p s dt).gameOver = false := by
  have hupd : g.Update true p s dt = g.InitializeGame := by
    unfold Game.Update
    rw [if_pos hgo, if_pos rfl]
  rw [hupd, initialize_history, initialize_tower, initialize_score, initialize_perfects,
    initialize_speed, initialize_direction, initialize_gameOver]
  exact ⟨rfl, rfl, rfl, rfl, rfl, rfl, rfl⟩

unseal Rat.mul Rat.add Rat.sub Rat.inv in
theorem c6_witness :
    ({ mkSample 300 200 with gameOver := true } : Game).gameOver = true
    ∧ (({ mkSample 300 200 with gameOver := true } : Game).Update true false false 0).scoreHistory
        = ({ mkSample 300 200 with gameOver := true } : Game).scoreHistory
    ∧ (({ mkSample 300 200 with gameOver := true } : Game).Update true false false 0).tower.towerStack
        = [{ mkBlock (SCREEN_WIDTH / 2 - INITIAL_BLOCK_WIDTH / 2) (SCREEN_HEIGHT - 100)
            INITIAL_BLOCK_WIDTH BLOCK_HEIGHT (GetBlockColor 0) 0 with isMoving := false }]
    ∧ (({ mkSample 300 200 with gameOver := true } : Game).Update true false false 0).score = 0
    ∧ (({ mkSample 300 200 with gameOver := true } : Game).Update true false false 0).consecutivePerfects = 0
    ∧ (({ mkSample 300 200 with gameOver := true } : Game).Update true false false 0).blockSpeed = INITIAL_SPEED
    ∧ (({ mkSample 300 200 with gameOver := true } : Game).Update true false false 0).direction = 1
    ∧ (({ mkSample 300 200 with gameOver := true } : Game).Update true false false 0).gameOver = false := by
  refine ⟨by decide, ?_⟩
  exact c6_restart_preserves_history { mkSample 300 200 with gameOver := true } false false 0
    (by decide)

/-! ## Claim C7 -/

/-- C7 counterexample: the parameterized `Block` constructor called with
`speed = 0` still yields `isMoving = true`, contradicting
`isMoving = (speed ≠ 0)`. -/
theorem c7_counterexample :
    (mkBlock 0 0 200 30 0 0).speed = 0 ∧ (mkBlock 0 0 200 30 0 0).isMoving = true :=
  ⟨rfl, rfl⟩

/-- C7 (amended): the parameterized constructor sets `isMoving = true`
unconditionally, whatever the speed; the base block is only immobile
because `InitializeGame` explicitly assigns `isMoving = false` after
construction, so every block of a freshly initialized tower is
non-moving. -/
theorem c7_constructor_always_moving :
    (∀ (x y w h : ℚ) (c : ℤ) (s : ℚ), (mkBlock x y w h c s).isMoving = true)
    ∧ ∀ g : Game, ∀ b ∈ (g.InitializeGame).tower.towerStack, b.isMoving = false := by
  constructor
  · intro x y w h c s
    rfl
  · intro g b hb
    rw [initialize_tower] at hb
    rcases List.mem_singleton.mp hb with rfl
    rfl

unseal Rat.mul Rat.add Rat.sub Rat.inv in
theorem c7_witness :
    (({ mkBlock (SCREEN_WIDTH / 2 - INITIAL_BLOCK_WIDTH / 2) (SCREEN_HEIGHT - 100)
        INITIAL_BLOCK_WIDTH BLOCK_HEIGHT (GetBlockColor 0) 0 with isMoving := false } : Block)
      ∈ (Game.initialState.InitializeGame).tower.towerStack)
    ∧ ({ mkBlock (SCREEN_WIDTH / 2 - INITIAL_BLOCK_WIDTH / 2) (SCREEN_HEIGHT - 100)
        INITIAL_BLOCK_WIDTH BLOCK_HEIGHT (GetBlockColor 0) 0 with isMoving := false } : Block).isMoving
      = false :=
  ⟨by decide, c7_constructor_always_moving.2 Game.initialState _ (by decide)⟩

/-! ## Claim C8 -/

/-- C8 counterexample: `Tower::Top` on an empty tower is the unguarded
`std::stack::top()` — undefined behaviour, not a reported `EmptyContainer`
error value (no such error exists anywhere in the code). -/
theorem c8_counterexample :
    Tower.TopImpl { towerStack := [], height := 0 } = CppOutcome.undefinedBehaviour :=
  rfl

/-- C8 (amended): `Tower::Top` returns a block exactly on non-empty
towers and is undefined behaviour exactly on empty ones; the game guards
every call (the `IsEmpty` check precedes the `Top()` read in
`TrimAndStackBlock`), and after `InitializeGame` the tower is never
empty, so the undefined case is unreachable in play. -/
theorem c8_top_unguarded :
    (∀ t : Tower, t.IsEmpty = false → ∃ b, t.TopImpl = CppOutcome.val b)
    ∧ (∀ t : Tower, t.IsEmpty = true → t.TopImpl = CppOutcome.undefinedBehaviour)
    ∧ ∀ g : Game, (g.InitializeGame).tower.IsEmpty = false := by
  refine ⟨?_, ?_, ?_⟩
  · intro t ht
    cases hts : t.towerStack with
    | nil => simp [Tower.IsEmpty, hts] at ht
    | cons b bs => exact ⟨b, by unfold Tower.TopImpl; rw [hts]⟩
  · intro t ht
    cases hts : t.towerStack with
    | nil => unfold Tower.TopImpl; rw [hts]
    | cons b bs => simp [Tower.IsEmpty, hts] at ht
  · intro g
    rw [initialize_tower]
    rfl

theorem c8_witness :
    sampleTower.IsEmpty = false
    ∧ (∃ b, sampleTower.TopImpl = CppOutcome.val b)
    ∧ Tower.new.IsEmpty = true
    ∧ Tower.new.TopImpl = CppOutcome.undefinedBehaviour :=
  ⟨by decide, c8_top_unguarded.1 sampleTower (by decide), by decide,
    c8_top_unguarded.2.1 Tower.new (by decide)⟩

/-! ## Claim C9 -/

/-- A concrete one-entry history used to exercise `GetTopScores`. -/
def histC9 : ScoreHistory := { head := [{ score := 5, height := 1 }], count := 1 }

/-- C9 counterexample: `GetTopScores` takes an `int n`; at `n = -1` on a
one-entry log it prints 0 entries, not `min(n, count) = -1` entries. -/
theorem c9_counterexample :
    histC9.GetTopScores (-1) = TopScoresReport.listing []
    ∧ ((List.length ([] : List (ℤ × ℤ)) : ℤ) ≠ min (-1) ((histC9.head.length : ℤ))) := by
  constructor
  · simp [ScoreHistory.GetTopScores, histC9]
  · simp [histC9]

/-- C9 (amended): on an empty log `GetTopScores` returns the explicit
empty message; on a non-empty log with `n ≥ 0` it lists
`min(n, count)` entries in non-increasing score order which are exactly
the `min(n, count)` highest-scoring entries (some permutation of the rest
scores no higher); for `n < 0` the loop bound `min(n, size)` is negative
and no entries are listed. -/
theorem c9_top_scores :
    (∀ (h : ScoreHistory) (n : ℤ), h.head = [] → h.GetTopScores n = TopScoresReport.noGames)
    ∧ (∀ (h : ScoreHistory) (n : ℤ), 0 ≤ n → h.head ≠ [] →
        ∃ shown rest, h.GetTopScores n = TopScoresReport.listing shown
          ∧ (shown.length : ℤ) = min n (h.head.length : ℤ)
          ∧ shown.Pairwise (fun a b : ℤ × ℤ => b.1 ≤ a.1)
          ∧ (shown ++ rest).Perm (h.head.map (fun e => (e.score, e.height)))
          ∧ ∀ a ∈ shown, ∀ b ∈ rest, b.1 ≤ a.1)
    ∧ (∀ (h : ScoreHistory) (n : ℤ), n < 0 → h.head ≠ [] →
        h.GetTopScores n = TopScoresReport.listing []) := by
  have htrans : ∀ a b c : ℤ × ℤ, (fun a b : ℤ × ℤ => decide (b.1 ≤ a.1)) a b = true →
      (fun a b : ℤ × ℤ => decide (b.1 ≤ a.1)) b c = true →
      (fun a b : ℤ × ℤ => decide (b.1 ≤ a.1)) a c = true := by
    intro a b c hab hbc
    simp only [decide_eq_true_eq] at hab hbc ⊢
    omega
  have htotal : ∀ a b : ℤ × ℤ, ((fun a b : ℤ × ℤ => decide (b.1 ≤ a.1)) a b
      || (fun a b : ℤ × ℤ => decide (b.1 ≤ a.1)) b a) = true := by
    intro a b
    simp only [Bool.or_eq_true, decide_eq_true_eq]
    omega
  refine ⟨?_, ?_, ?_⟩
  · intro h n hh
    obtain ⟨hd, cnt⟩ := h
    dsimp only at hh
    subst hh
    rfl
  · intro h n hn hne
    obtain ⟨hd, cnt⟩ := h
    dsimp only at hne ⊢
    cases hd with
    | nil => exact absurd rfl hne
    | cons e tl =>
      have hperm := List.mergeSort_perm ((e :: tl).map (fun a => (a.score, a.height)))
        (fun a b : ℤ × ℤ => decide (b.1 ≤ a.1))
      have hsorted0 := List.sorted_mergeSort htrans htotal
        ((e :: tl).map (fun a => (a.score, a.height)))
      have hsorted : (((e :: tl).map (fun a => (a.score, a.height))).mergeSort
          (fun a b : ℤ × ℤ => decide (b.1 ≤ a.1))).Pairwise
          (fun a b : ℤ × ℤ => b.1 ≤ a.1) :=
        hsorted0.imp (fun hab => of_decide_eq_true hab)
      refine ⟨_, (((e :: tl).map (fun a => (a.score, a.height))).mergeSort
          (fun a b : ℤ × ℤ => decide (b.1 ≤ a.1))).drop
            (min n (((e :: tl).map (fun a => (a.score, a.height))).length : ℤ)).toNat,
        rfl, ?_, ?_, ?_, ?_⟩
      · rw [List.length_take, hperm.length_eq, List.length_map]
        rcases le_total n ((e :: tl).length : ℤ) with hcase | hcase
        · rw [min_eq_left hcase, min_eq_left (by omega : n.toNat ≤ (e :: tl).length)]
          exact Int.toNat_of_nonneg hn
        · rw [min_eq_right hcase]
          have hL : (((e :: tl).length : ℤ)).toNat = (e :: tl).length := by omega
          rw [hL, min_self]
      · exact hsorted.sublist (List.take_sublist _ _)
      · rw [List.take_append_drop]
        exact hperm
      · have hp2 := hsorted
        rw [← List.take_append_drop
          (min n (((e :: tl).map (fun a => (a.score, a.height))).length : ℤ)).toNat
          (((e :: tl).map (fun a => (a.score, a.height))).mergeSort
            (fun a b : ℤ × ℤ => decide (b.1 ≤ a.1)))] at hp2
        exact (List.pairwise_append.mp hp2).2.2
  · intro h n hneg hne
    obtain ⟨hd, cnt⟩ := h
    dsimp only at hne ⊢
    cases hd with
    | nil => exact absurd rfl hne
    | cons e tl =>
      unfold ScoreHistory.GetTopScores
      dsimp only
      have hz : (min n (((e :: tl).map (fun a => (a.score, a.height))).length : ℤ)).toNat = 0 := by
        have h1 : min n (((e :: tl).map (fun a => (a.score, a.height))).length : ℤ) ≤ n :=
          min_le_left _ _
        omega
      rw [hz, List.take_zero]

theorem c9_witness :
    (0 : ℤ) ≤ 2
    ∧ histC9.head ≠ []
    ∧ ∃ shown rest, histC9.GetTopScores 2 = TopScoresReport.listing shown
        ∧ (shown.length : ℤ) = min 2 (histC9.head.length : ℤ)
        ∧ shown.Pairwise (fun a b : ℤ × ℤ => b.1 ≤ a.1)
        ∧ (shown ++ rest).Perm (histC9.head.map (fun e => (e.score, e.height)))
        ∧ ∀ a ∈ shown, ∀ b ∈ rest, b.1 ≤ a.1 :=
  ⟨by decide, by simp [histC9], c9_top_scores.2.1 histC9 2 (by decide) (by simp [histC9])⟩

/-! ## Claim C10 -/

lemma apply_ops_height : ∀ (ops : List TowerOp) (t : Tower),
    t.height = (t.towerStack.length : ℤ) →
    (t.applyOps ops).height = ((t.applyOps ops).towerStack.length : ℤ) := by
  intro ops
  induction ops with
  | nil => intro t h; exact h
  | cons op ops ih =>
    intro t h
    simp only [Tower.applyOps]
    apply ih
    cases op with
    | push b =>
      simp only [Tower.applyOp, Tower.Push, List.length_cons]
      rw [h]
      push_cast
      ring
    | pop =>
      cases hts : t.towerStack with
      | nil =>
        simp only [Tower.applyOp, Tower.Pop, hts]
        rw [hts] at h
        exact h
      | cons b bs =>
        simp only [Tower.applyOp, Tower.Pop, hts]
        rw [hts, List.length_cons] at h
        push_cast at h ⊢
        omega
    | clear =>
      simp only [Tower.applyOp, Tower.Clear, List.length_nil]
      rfl

/-- C10: for every sequence of Push/Pop/Clear operations from a fresh
`Tower`, the `height` counter equals the number of stacked elements;
`Pop` on an empty tower is a no-op; hence `GetHeight` is never
negative. -/
theorem c10_height_matches_stack :
    (∀ ops : List TowerOp,
      (Tower.new.applyOps ops).height = ((Tower.new.applyOps ops).towerStack.length : ℤ))
    ∧ (∀ t : Tower, t.towerStack = [] → t.Pop = t)
    ∧ ∀ ops : List TowerOp, 0 ≤ (Tower.new.applyOps ops).GetHeight := by
  refine ⟨fun ops => apply_ops_height ops Tower.new rfl, ?_, ?_⟩
  · intro t ht
    unfold Tower.Pop
    rw [ht]
  · intro ops
    unfold Tower.GetHeight
    rw [apply_ops_height ops Tower.new rfl]
    positivity

theorem c10_witness :
    Tower.new.towerStack = []
    ∧ Tower.new.Pop = Tower.new :=
  ⟨rfl, c10_height_matches_stack.2.1 Tower.new rfl⟩

end TowerBuilder
